import Mathlib

/-!
Verification of the benthos S3/SQS input reader, the decompress processor and
the redis_list/nsq input wiring, shallowly embedded from
`lib/input/reader/amazon_s3.go`, the decompress processor file, and
`lib/input/redis_list.go` / `lib/input/nsq.go`.

External collaborators (the AWS SDK, the JSON parser, the system clock and the
network) are modelled as explicit oracle parameters; outbound side effects
(S3 DeleteObject, SQS DeleteMessageBatch) are reified as an `Effect` list so
that theorems can talk about which calls a code path performs.
-/

namespace Benthos

/-- The typed errors of `lib/types` used by the reader
(`ErrNotConnected`, `ErrTimeout`, `ErrTypeClosed`) plus generic
`fmt.Errorf` errors. -/
inductive BenthosErr where
  | notConnected
  | timeout
  | typeClosed
  | generic (msg : String)
deriving DecidableEq, Repr

/-- An `sqs.DeleteMessageBatchRequestEntry` (Id, ReceiptHandle). -/
structure SqsEntry where
  id : String
  receiptHandle : String
deriving DecidableEq, Repr

/-- `objKey` from amazon_s3.go: a pending or read S3 object key.
`attempts` is a Go `int` (it is decremented and compared to 0), and
`sqsHandle` is the nilable `*sqs.DeleteMessageBatchRequestEntry`. -/
structure ObjKey where
  s3Key : String
  s3Bucket : String
  attempts : Int
  sqsHandle : Option SqsEntry
deriving DecidableEq, Repr

/-- Reified outbound AWS calls performed by the reader. -/
inductive Effect where
  | s3Delete (bucket key : String)
  | sqsDeleteBatch (url : String) (entries : List SqsEntry)
deriving DecidableEq, Repr

/-- `S3DownloadManagerConfig`. -/
structure S3DownloadManagerConfig where
  Enabled : Bool
deriving DecidableEq, Repr

/-- `AmazonS3Config` (the session sub-config is irrelevant to the claims and
the `Prefix` field is named `PrefixStr` here). -/
structure AmazonS3Config where
  Bucket : String
  PrefixStr : String
  Retries : Int
  DownloadManager : S3DownloadManagerConfig
  DeleteObjects : Bool
  SQSURL : String
  SQSBodyPath : String
  SQSBucketPath : String
  SQSEnvelopePath : String
  SQSMaxMessages : Int
  MaxBatchCount : Int
  Timeout : String
deriving DecidableEq, Repr

/-- `NewAmazonS3Config` default values. -/
def NewAmazonS3Config : AmazonS3Config where
  Bucket := ""
  PrefixStr := ""
  Retries := 3
  DownloadManager := ⟨true⟩
  DeleteObjects := false
  SQSURL := ""
  SQSBodyPath := "Records.s3.object.key"
  SQSBucketPath := ""
  SQSEnvelopePath := ""
  SQSMaxMessages := 10
  MaxBatchCount := 1
  Timeout := "5s"

/-- The `AmazonS3` reader state.  The nilable `session` / `sqs` client
pointers are modelled by the booleans `sessionActive` / `sqsActive`; the
`readMethod` function pointer (set once in the constructor) is modelled by the
boolean `useMgr`. -/
structure AmazonS3 where
  conf : AmazonS3Config
  sqsBodyPath : List String
  sqsEnvPath : List String
  sqsBucketPath : List String
  readKeys : List ObjKey
  targetKeys : List ObjKey
  sessionActive : Bool
  sqsActive : Bool
  useMgr : Bool
  timeout : Int
deriving DecidableEq, Repr

/-- `NewAmazonS3`.  `parseDuration` is the external `time.ParseDuration`
(result in nanoseconds, `none` on parse failure). -/
def NewAmazonS3 (conf : AmazonS3Config) (parseDuration : String → Option Int) :
    Except String AmazonS3 :=
  let path := if conf.SQSBodyPath.length > 0 then conf.SQSBodyPath.splitOn "." else []
  let bucketPath := if conf.SQSBucketPath.length > 0 then conf.SQSBucketPath.splitOn "." else []
  let envPath := if conf.SQSEnvelopePath.length > 0 then conf.SQSEnvelopePath.splitOn "." else []
  let toutRes : Except String Int :=
    if conf.Timeout.length > 0 then
      match parseDuration conf.Timeout with
      | some d => .ok d
      | none => .error "failed to parse timeout string"
    else .ok 0
  match toutRes with
  | .error e => .error e
  | .ok tout =>
    if conf.MaxBatchCount < 1 then
      .error "max_batch_count must be > 0"
    else
      .ok { conf := conf
            sqsBodyPath := path
            sqsEnvPath := envPath
            sqsBucketPath := bucketPath
            readKeys := []
            targetKeys := []
            sessionActive := false
            sqsActive := false
            useMgr := conf.DownloadManager.Enabled
            timeout := tout }

/-- Environment for `Connect`: whether session creation succeeds, the pages
streamed by `ListObjectsPages` (each a list of object keys), and whether the
pagination ends in an error (after the listed pages were already consumed by
the callback, matching the streaming behaviour of the SDK). -/
structure ConnectEnv where
  sessionOk : Bool
  listPages : List (List String)
  listErr : Bool

/-- `AmazonS3.Connect`.  Returns the new state and an error (`none` = nil). -/
def AmazonS3.Connect (a : AmazonS3) (env : ConnectEnv) : AmazonS3 × Option String :=
  if a.sessionActive then (a, none)
  else if env.sessionOk = false then (a, some "session error")
  else if a.conf.SQSURL.length = 0 then
    -- the pagination callback appends every listed key before any error
    let a1 := { a with targetKeys :=
      a.targetKeys ++ (env.listPages.flatten.map fun k =>
        { s3Key := k, s3Bucket := "", attempts := a.conf.Retries, sqsHandle := none }) }
    if env.listErr then (a1, some "failed to list objects")
    else ({ a1 with sessionActive := true }, none)
  else ({ a with sqsActive := true, sessionActive := true }, none)

/-- Bucket selection shared by `read`/`readFromMgr`/`Acknowledge`:
the per-key bucket when set, the configured bucket otherwise. -/
def ackBucket (conf : AmazonS3Config) (k : ObjKey) : String :=
  if k.s3Bucket.length > 0 then k.s3Bucket else conf.Bucket

/-- The delete-in-batches-of-ten loop shared by `Acknowledge` and
`readSQSEvents`: take the first 10 handles per `DeleteMessageBatch` call
while more than 10 remain, then a final call with the remainder. -/
def batchDeletes (url : String) (hs : List SqsEntry) : List Effect :=
  if hs.isEmpty then []
  else if _h : hs.length > 10 then
    Effect.sqsDeleteBatch url (hs.take 10) :: batchDeletes url (hs.drop 10)
  else
    [Effect.sqsDeleteBatch url hs]
termination_by hs.length
decreasing_by
  simp only [List.length_drop]
  omega

/-- A parsed JSON value as held by a `gabs.Container`.  JSON `null` parses to
a nil `interface` in Go, represented by `jnull`. -/
inductive JValue where
  | jnull
  | jbool (b : Bool)
  | jnum (n : Int)
  | jstr (s : String)
  | jarr (xs : List JValue)
  | jobj (fields : List (String × JValue))

mutual
/-- `gabs.Container.Search` (v1): walk the hierarchy through objects; on an
array, search every element for the remaining hierarchy and collect the hits
into a fresh array (nil if no element matched); `none` models the nil
container returned on a miss. -/
def gabsSearch : JValue → List String → Option JValue
  | v, [] => some v
  | .jobj fields, key :: rest =>
    match fields.lookup key with
    | some v => gabsSearch v rest
    | none => none
  | .jarr xs, key :: rest =>
    match gabsSearchList xs (key :: rest) with
    | [] => none
    | hits => some (.jarr hits)
  | _, _ :: _ => none

/-- The array fan-out of `gabs.Container.Search`: each element searched with
the full remaining hierarchy, misses skipped. -/
def gabsSearchList : List JValue → List String → List JValue
  | [], _ => []
  | x :: xs, path =>
    match gabsSearch x path with
    | some v => v :: gabsSearchList xs path
    | none => gabsSearchList xs path
end

/-- `gObj.S(path...).Data()`: the data at the path, with the nil container
collapsing to a nil interface, i.e. `jnull`. -/
def searchData (g : JValue) (path : List String) : JValue :=
  match gabsSearch g path with
  | some v => v
  | none => .jnull

/-- `digStrsFromSlices`: collect the strings of a slice, recursing into
nested slices. -/
def digStrsFromSlices : List JValue → List String
  | [] => []
  | .jarr t :: rest => digStrsFromSlices t ++ digStrsFromSlices rest
  | .jstr s :: rest => s :: digStrsFromSlices rest
  | _ :: rest => digStrsFromSlices rest

/-- `strings.HasPrefix(s, p)`: `s` begins with `p`. -/
def hasPrefixStr (s p : String) : Bool := p.data.isPrefixOf s.data

/-- An `sqs.Message`: MessageId, ReceiptHandle, and the nilable Body. -/
structure SqsMsg where
  messageId : String
  receiptHandle : String
  body : Option String
deriving DecidableEq, Repr

/-- Outcome of the `messageLoop` body of `readSQSEvents` for one SQS message:
either the handle joins `dudMessageHandles`, or some object keys (with the
SQS handle already placed as the source places it) are appended to
`targetKeys`, or nothing happens (a plain string key that misses the
configured key-prefix, or a body value that is neither string nor slice). -/
inductive SqsOutcome where
  | dud (h : SqsEntry)
  | targets (ks : List ObjKey)
  | skip
deriving DecidableEq, Repr

/-- Set the `sqsHandle` of the last element, as
`a.targetKeys[len(a.targetKeys)-1].sqsHandle = msgHandle` does right after the
keys were appended (equivalent because the batch appended for this message is
non-empty, so the last element of the whole list is the last of the batch). -/
def setLastHandle (h : SqsEntry) : List ObjKey → List ObjKey
  | [] => []
  | [k] => [{ k with sqsHandle := some h }]
  | k :: k2 :: ks => k :: setLastHandle h (k2 :: ks)

/-- The bucket-name extraction of `readSQSEvents`: a string at the bucket
path yields a singleton, a slice yields its dug-out strings, anything else
yields no buckets. -/
def extractBuckets (g : JValue) (bucketPath : List String) : List String :=
  match searchData g bucketPath with
  | .jstr t => [t]
  | .jarr t => digStrsFromSlices t
  | _ => []

/-- One iteration of the `messageLoop` of `readSQSEvents`.  `parse` models
both `gabs.ParseJSON` and `json.Unmarshal` (`none` = parse error). -/
def processSQSMessage (conf : AmazonS3Config)
    (envPath bucketPath bodyPath : List String)
    (parse : String → Option JValue) (m : SqsMsg) : SqsOutcome :=
  let msgHandle : SqsEntry := ⟨m.messageId, m.receiptHandle⟩
  match m.body with
  | none => .dud msgHandle
  | some body =>
    match parse body with
    | none => .dud msgHandle
    | some gObj0 =>
      -- envelope unwrapping
      let gObjE : Option JValue :=
        if envPath.length > 0 then
          match searchData gObj0 envPath with
          | .jstr t => parse t
          | .jarr t =>
            let docs := (digStrsFromSlices t).filterMap fun v => parse v
            if docs.isEmpty then none else some (.jarr docs)
          | _ => none
        else some gObj0
      match gObjE with
      | none => .dud msgHandle
      | some gObj =>
        let buckets : List String := extractBuckets gObj bucketPath
        match searchData gObj bodyPath with
        | .jstr t =>
          if hasPrefixStr t conf.PrefixStr then
            .targets [{ s3Key := t, s3Bucket := buckets.headD "",
                        attempts := conf.Retries, sqsHandle := some msgHandle }]
          else .skip
        | .jarr t =>
          let newTargets := (digStrsFromSlices t).filter
            fun p => hasPrefixStr p conf.PrefixStr
          if newTargets.isEmpty then .dud msgHandle
          else
            let ks := newTargets.enum.map fun itgt =>
              ({ s3Key := itgt.2, s3Bucket := buckets.getD itgt.1 "",
                 attempts := conf.Retries, sqsHandle := none } : ObjKey)
            .targets (setLastHandle msgHandle ks)
        | _ => .skip

/-- `AmazonS3.readSQSEvents`.  `receive` is the result of
`sqs.ReceiveMessage`; the returned effects are the dud-handle
`DeleteMessageBatch` calls; the returned error is nil or
`ErrTimeout` / the receive error. -/
def AmazonS3.readSQSEvents (a : AmazonS3) (receive : Except String (List SqsMsg))
    (parse : String → Option JValue) : AmazonS3 × List Effect × Option BenthosErr :=
  match receive with
  | .error e => (a, [], some (.generic e))
  | .ok msgs =>
    let step := msgs.foldl
      (fun acc m =>
        match processSQSMessage a.conf a.sqsEnvPath a.sqsBucketPath a.sqsBodyPath parse m with
        | .dud h => (acc.1, acc.2 ++ [h])
        | .targets ks => (acc.1 ++ ks, acc.2)
        | .skip => acc)
      (a.targetKeys, ([] : List SqsEntry))
    let a1 := { a with targetKeys := step.1 }
    let effs := batchDeletes a.conf.SQSURL step.2
    if a1.targetKeys.isEmpty then (a1, effs, some .timeout)
    else (a1, effs, none)

/-- A message part: payload bytes plus metadata key/value pairs.  The
`addS3Metadata` timestamp/content-type entries are orthogonal to every claim
and folded into the object metadata here. -/
structure MsgPart where
  data : List Nat
  meta : List (String × String)
deriving DecidableEq, Repr

/-- Result of one `s3.GetObject` call: `body = none` models a failure while
reading the response body (`ioutil.ReadAll`), after the call itself
succeeded. -/
structure S3Object where
  body : Option (List Nat)
  metadata : List (String × String)
deriving DecidableEq, Repr

/-- Result of the download loop of `read`/`readFromMgr`: the final
`targetKeys` and `readKeys`, the accumulated message parts, and an error when
the loop path returns one (in which case the caller discards the parts). -/
structure BatchLoopResult where
  targetKeys : List ObjKey
  readKeys : List ObjKey
  msg : List MsgPart
  err : Option BenthosErr
deriving DecidableEq, Repr

/-- `popTargetKey`: move the head target key (if any) to the read set. -/
def popTargetKey (targetKeys readKeys : List ObjKey) : List ObjKey × List ObjKey :=
  match targetKeys with
  | [] => ([], readKeys)
  | t :: rest => (rest, readKeys ++ [t])

/-- The download loop of `AmazonS3.read`
(`for len(a.targetKeys) > 0 && msg.Len() < a.conf.MaxBatchCount && time.Until(timeoutAt) > 0`).
`dl` is the `GetObject` oracle consumed one entry per call (`none` = call
error); `clock` is whether deadline time remains at each iteration check.
On a download error the local copy's attempts are decremented: when they hit
zero the stored key (with its stored attempts) is popped into `readKeys` and
the loop continues; otherwise the decrement is written back to the stored
head key and the loop either fails (no parts so far) or breaks. -/
def readBatchLoop (conf : AmazonS3Config) :
    List ObjKey → List ObjKey → List (Option S3Object) → List Bool →
    List MsgPart → BatchLoopResult
  | [], rk, _, _, msg => ⟨[], rk, msg, none⟩
  | t :: rest, rk, dl, clock, msg =>
    if (msg.length : Int) < conf.MaxBatchCount ∧ clock.headD false = true then
      let bucket := if t.s3Bucket.length > 0 then t.s3Bucket else conf.Bucket
      match dl.headD none with
      | none =>
        let att := t.attempts - 1
        if att = 0 then
          -- remove the target file from our list (popTargetKey): the key
          -- dropped after exhausting its retries joins the read set
          readBatchLoop conf rest (rk ++ [t]) dl.tail clock.tail msg
        else if msg.length = 0 then
          ⟨{ t with attempts := att } :: rest, rk, msg,
            some (.generic "failed to download file")⟩
        else
          ⟨{ t with attempts := att } :: rest, rk, msg, none⟩
      | some obj =>
        match obj.body with
        | none =>
          -- popTargetKey already happened; ReadAll failed
          ⟨rest, rk ++ [t], msg, some (.generic "failed to download file")⟩
        | some bs =>
          let part : MsgPart :=
            ⟨bs, obj.metadata ++ [("s3_key", t.s3Key), ("s3_bucket", bucket)]⟩
          readBatchLoop conf rest (rk ++ [t]) dl.tail clock.tail (msg ++ [part])
    else ⟨t :: rest, rk, msg, none⟩

/-- The download loop of `AmazonS3.readFromMgr`: same shape, the downloader
writes into a buffer (`mgrDl` oracle, `none` = download error) and only the
`s3_key`/`s3_bucket` metadata entries are set. -/
def readMgrLoop (conf : AmazonS3Config) :
    List ObjKey → List ObjKey → List (Option (List Nat)) → List Bool →
    List MsgPart → BatchLoopResult
  | [], rk, _, _, msg => ⟨[], rk, msg, none⟩
  | t :: rest, rk, dl, clock, msg =>
    if (msg.length : Int) < conf.MaxBatchCount ∧ clock.headD false = true then
      let bucket := if t.s3Bucket.length > 0 then t.s3Bucket else conf.Bucket
      match dl.headD none with
      | none =>
        let att := t.attempts - 1
        if att = 0 then
          readMgrLoop conf rest (rk ++ [t]) dl.tail clock.tail msg
        else if msg.length = 0 then
          ⟨{ t with attempts := att } :: rest, rk, msg,
            some (.generic "failed to download file")⟩
        else
          ⟨{ t with attempts := att } :: rest, rk, msg, none⟩
      | some bs =>
        let part : MsgPart :=
          ⟨bs, [("s3_key", t.s3Key), ("s3_bucket", bucket)]⟩
        readMgrLoop conf rest (rk ++ [t]) dl.tail clock.tail (msg ++ [part])
    else ⟨t :: rest, rk, msg, none⟩

/-- Environment for one `Read` call: the SQS receive result, the JSON parser,
the two download oracles and the deadline clock. -/
structure ReadEnv where
  sqsReceive : Except String (List SqsMsg)
  parse : String → Option JValue
  dl : List (Option S3Object)
  mgrDl : List (Option (List Nat))
  clock : List Bool

/-- The shared prologue of `read`/`readFromMgr`: when no targets are pending,
poll SQS when it is configured, otherwise the listing is exhausted and the
reader is done (`ErrTypeClosed`). -/
def AmazonS3.readPrologue (a : AmazonS3) (env : ReadEnv) :
    AmazonS3 × List Effect × Option BenthosErr :=
  if a.targetKeys.isEmpty then
    if a.sqsActive then a.readSQSEvents env.sqsReceive env.parse
    else (a, [], some .typeClosed)
  else (a, [], none)

/-- `AmazonS3.read` (download manager disabled). -/
def AmazonS3.read (a : AmazonS3) (env : ReadEnv) :
    AmazonS3 × List Effect × Except BenthosErr (List MsgPart) :=
  if a.sessionActive = false then (a, [], .error .notConnected)
  else
    match a.readPrologue env with
    | (a1, effs, some e) => (a1, effs, .error e)
    | (a1, effs, none) =>
      if a1.targetKeys.isEmpty then (a1, effs, .error .timeout)
      else
        let r := readBatchLoop a1.conf a1.targetKeys a1.readKeys env.dl env.clock []
        let a2 := { a1 with targetKeys := r.targetKeys, readKeys := r.readKeys }
        match r.err with
        | some e => (a2, effs, .error e)
        | none => (a2, effs, .ok r.msg)

/-- `AmazonS3.readFromMgr` (download manager enabled). -/
def AmazonS3.readFromMgr (a : AmazonS3) (env : ReadEnv) :
    AmazonS3 × List Effect × Except BenthosErr (List MsgPart) :=
  if a.sessionActive = false then (a, [], .error .notConnected)
  else
    match a.readPrologue env with
    | (a1, effs, some e) => (a1, effs, .error e)
    | (a1, effs, none) =>
      if a1.targetKeys.isEmpty then (a1, effs, .error .timeout)
      else
        let r := readMgrLoop a1.conf a1.targetKeys a1.readKeys env.mgrDl env.clock []
        let a2 := { a1 with targetKeys := r.targetKeys, readKeys := r.readKeys }
        match r.err with
        | some e => (a2, effs, .error e)
        | none => (a2, effs, .ok r.msg)

/-- `AmazonS3.Read`: dispatch through the `readMethod` pointer installed by
the constructor. -/
def AmazonS3.Read (a : AmazonS3) (env : ReadEnv) :
    AmazonS3 × List Effect × Except BenthosErr (List MsgPart) :=
  if a.useMgr then a.readFromMgr env else a.read env

/-- `AmazonS3.Acknowledge`.  `err = none` is a nil error argument; the
returned `Option String` is the (always nil) return value. -/
def AmazonS3.Acknowledge (a : AmazonS3) (err : Option String) :
    AmazonS3 × List Effect × Option String :=
  match err with
  | none =>
    let s3Effs : List Effect := a.readKeys.filterMap fun key =>
      if a.conf.DeleteObjects = true then
        some (Effect.s3Delete (ackBucket a.conf key) key.s3Key)
      else none
    let deleteHandles : List SqsEntry := a.readKeys.filterMap ObjKey.sqsHandle
    ({ a with readKeys := [] }, s3Effs ++ batchDeletes a.conf.SQSURL deleteHandles, none)
  | some _ =>
    ({ a with targetKeys := a.readKeys ++ a.targetKeys, readKeys := [] }, [], none)

/-! ## Decompress processor -/

/-- The old-style `types.Message` used by the decompress processor file:
a plain `Parts [][]byte`. -/
structure TMessage where
  Parts : List (List Nat)
deriving DecidableEq, Repr

/-- `types.Response`; `simpleResponse none` is `types.NewSimpleResponse(nil)`,
the success response. -/
inductive TResponse where
  | simpleResponse (err : Option String)
deriving DecidableEq, Repr

/-- `DecompressConfig`. -/
structure DecompressConfig where
  Algorithm : String
  Parts : List Int
deriving DecidableEq, Repr

/-- The `Decompress` processor: its config and the selected
`decompressFunc` (a `[]byte → ([]byte, error)` function, abstract here). -/
structure Decompress where
  conf : DecompressConfig
  decomp : List Nat → Option (List Nat)

/-- The part-targeting test of `Decompress.ProcessMessage`: a part at index
`i` of an `lParts`-part message is targeted when the configured list is empty
or contains `i` or the negative index `i - lParts`.  (The source computes
this with a short-circuiting loop; `List.any` is the same test.) -/
def decompTargeted (partsConf : List Int) (lParts i : Nat) : Bool :=
  partsConf.isEmpty ||
    partsConf.any fun t => t = (i : Int) - (lParts : Int) || t = (i : Int)

/-- `Decompress.ProcessMessage`: untargeted parts pass through, targeted
parts are replaced by their decompression, targeted parts that fail to
decompress are dropped; a resulting zero-part message is skipped entirely
with a nil-error simple response. -/
def Decompress.ProcessMessage (d : Decompress) (msg : TMessage) :
    List TMessage × Option TResponse :=
  let lParts := msg.Parts.length
  let newParts : List (List Nat) := msg.Parts.enum.foldl
    (fun acc ip =>
      if decompTargeted d.conf.Parts lParts ip.1 = false then acc ++ [ip.2]
      else
        match d.decomp ip.2 with
        | some newPart => acc ++ [newPart]
        | none => acc)
    []
  if newParts.isEmpty then ([], some (.simpleResponse none))
  else ([⟨newParts⟩], none)

/-- The parts of the message produced by `Decompress.ProcessMessage`, as a
single pass: an untargeted part passes through unchanged in place, a targeted
part is replaced by its decompression when it succeeds and removed when it
fails. -/
def decompressResultParts (d : Decompress) (msg : TMessage) : List (List Nat) :=
  msg.Parts.enum.filterMap fun ip =>
    if decompTargeted d.conf.Parts msg.Parts.length ip.1 then d.decomp ip.2
    else some ip.2

/-- A concrete decompressor for witnesses: strips a leading `1` byte. -/
def witDecomp : List Nat → Option (List Nat)
  | 1 :: rest => some rest
  | _ => none

/-- A concrete decompress processor targeting every part. -/
def witDecompress : Decompress where
  conf := { Algorithm := "gzip", Parts := [] }
  decomp := witDecomp

/-! ## gzip round trip

The decompress processor's `gzipDecompress` wraps the Go standard library
(`compress/gzip`), and the matching compressor lives in the compress
processor, neither of which is repository code under `src/`. -/

/-- Two little-endian bytes of a 16-bit value. -/
def le16 (n : Nat) : List Nat := [n % 256, n / 256 % 256]

/-- Four little-endian bytes of a 32-bit value. -/
def le32 (n : Nat) : List Nat :=
  [n % 256, n / 256 % 256, n / 65536 % 256, n / 16777216 % 256]

/-- Modelled from the spec: the DEFLATE stream produced for a payload by the
gzip writer missing from `src/`, using stored (uncompressed) blocks — a
final-flag byte, the 16-bit length, its ones complement, then the raw chunk
of at most 65535 bytes. -/
def deflateStored (data : List Nat) : List Nat :=
  if _h : data.length ≤ 65535 then
    1 :: (le16 data.length ++ le16 (65535 - data.length) ++ data)
  else
    0 :: (le16 65535 ++ le16 0 ++ (data.take 65535 ++ deflateStored (data.drop 65535)))
termination_by data.length
decreasing_by
  simp only [List.length_drop]
  omega

/-- Modelled from the spec: the stored-block DEFLATE reader inside the gzip
reader missing from `src/`.  Returns the decoded payload and the remaining
bytes (the gzip trailer), or `none` on a malformed stream. -/
def inflateStored (b : List Nat) : Option (List Nat × List Nat) :=
  match b with
  | bf :: l0 :: l1 :: n0 :: n1 :: rest =>
    let len := l0 + 256 * l1
    let nlen := n0 + 256 * n1
    if nlen = 65535 - len ∧ len ≤ rest.length then
      if bf = 1 then some (rest.take len, rest.drop len)
      else if bf = 0 then
        match inflateStored (rest.drop len) with
        | some pr => some (rest.take len ++ pr.1, pr.2)
        | none => none
      else none
    else none
  | _ => none
termination_by b.length
decreasing_by
  simp only [List.length_drop, List.length_cons]
  omega

/-- Modelled from the spec: the gzip compression of a payload (the compress
processor and `compress/gzip` writer are not under `src/`): magic header,
deflate method byte, empty flags, the stored-block deflate stream, then the
checksum and length trailer words. -/
def gzipCompress (data : List Nat) : List Nat :=
  [31, 139, 8, 0] ++ deflateStored data ++
    le32 (data.foldl (· + ·) 0 % 4294967296) ++ le32 (data.length % 4294967296)

/-- `gzipDecompress` of the decompress processor, with the `compress/gzip`
reader it wraps modelled from the spec: check the header, inflate the
deflate stream, verify the trailer against the decoded payload. -/
def gzipDecompress (b : List Nat) : Option (List Nat) :=
  match b with
  | 31 :: 139 :: 8 :: 0 :: rest =>
    match inflateStored rest with
    | some pr =>
      if pr.2 = le32 (pr.1.foldl (· + ·) 0 % 4294967296) ++
          le32 (pr.1.length % 4294967296) then
        some pr.1
      else none
    | none => none
  | _ => none

/-! ## Preserver wrapper and input wiring -/

/-- A low-level `reader.Type` connector, abstracted as pure transition
functions over a connector state `σ` producing messages of type `μ`. -/
structure LowReader (σ μ : Type) where
  read : σ → σ × Except BenthosErr μ
  acknowledge : σ → Option String → σ × Option String

/-- Modelled from the spec: the state of `reader.Preserver`
(`lib/input/reader/preserver.go` is not under `src/`): the wrapped connector
state, the last message read through the wrapper, and the message retained
after a failed acknowledgement, due to be re-emitted by the next read. -/
structure PreserverState (σ μ : Type) where
  inner : σ
  lastRead : Option μ
  unAcked : Option μ
deriving DecidableEq, Repr

/-- Modelled from the spec: `Preserver.Read` — re-emit a retained
message without polling the wrapped connector, otherwise poll it and
remember a successfully read message. -/
def preserverRead {σ μ : Type} (r : LowReader σ μ) (s : PreserverState σ μ) :
    PreserverState σ μ × Except BenthosErr μ :=
  match s.unAcked with
  | some m => ({ s with unAcked := none, lastRead := some m }, .ok m)
  | none =>
    let st := r.read s.inner
    match st.2 with
    | .ok m => ({ s with inner := st.1, lastRead := some m }, .ok m)
    | .error e => ({ s with inner := st.1 }, .error e)

/-- Modelled from the spec: `Preserver.Acknowledge` — a nil error is
forwarded to the wrapped connector; a non-nil error retains the last read
message for re-emission and reports success. -/
def preserverAcknowledge {σ μ : Type} (r : LowReader σ μ) (s : PreserverState σ μ)
    (err : Option String) : PreserverState σ μ × Option String :=
  match err with
  | none =>
    let st := r.acknowledge s.inner none
    ({ s with inner := st.1, lastRead := none }, st.2)
  | some _ => ({ s with unAcked := s.lastRead }, none)

/-- The connector stack built by an input constructor: a raw connector or a
preserver-wrapped one. -/
inductive InputReaderDesc where
  | rawRedisList
  | rawNSQ
  | preserved (d : InputReaderDesc)
deriving DecidableEq, Repr

/-- The result of `NewReader(name, r, log, stats)`: the input name and the
connector stack handed to the reader adaptor. -/
structure InputType where
  name : String
  rdr : InputReaderDesc
deriving DecidableEq, Repr

/-- `NewRedisList` from `lib/input/redis_list.go`: build the underlying
Redis list reader (`innerOk` = whether that construction succeeds), wrap it
in `reader.NewPreserver`, and hand it to `NewReader`. -/
def NewRedisList (innerOk : Bool) : Except String InputType :=
  if innerOk then .ok ⟨"redis_list", .preserved .rawRedisList⟩
  else .error "redis list construction failed"

/-- `NewNSQ` from `lib/input/nsq.go`: build the underlying NSQ reader and
hand it to `NewReader` directly, with no wrapper. -/
def NewNSQ (innerOk : Bool) : Except String InputType :=
  if innerOk then .ok ⟨"nsq", .rawNSQ⟩
  else .error "nsq construction failed"

/-! ## Auxiliary definitions for statements and witnesses -/

/-- The entries of a `DeleteMessageBatch` effect. -/
def batchEntries : Effect → Option (List SqsEntry)
  | .sqsDeleteBatch _ es => some es
  | _ => none

/-- A concrete reader state with two read-but-unacknowledged keys, one of
them carrying an SQS delete handle, and `delete_objects` enabled. -/
def witAck : AmazonS3 where
  conf := { NewAmazonS3Config with
            Bucket := "bkt"
            DeleteObjects := true
            SQSURL := "http://queue" }
  sqsBodyPath := ["Records", "s3", "object", "key"]
  sqsEnvPath := []
  sqsBucketPath := []
  readKeys :=
    [ { s3Key := "k1", s3Bucket := "", attempts := 3, sqsHandle := none },
      { s3Key := "k2", s3Bucket := "other", attempts := 3,
        sqsHandle := some ⟨"m1", "rh1"⟩ } ]
  targetKeys := []
  sessionActive := true
  sqsActive := true
  useMgr := false
  timeout := 5000000000

/-- A connected reader with consumed listing and no SQS queue. -/
def witClosed : AmazonS3 :=
  { witAck with
    conf := { witAck.conf with SQSURL := "" }
    readKeys := []
    sqsActive := false }

/-- A connected SQS-driven reader with no pending targets. -/
def witSqs : AmazonS3 := { witAck with readKeys := [] }

/-- A read environment whose receive round returns no messages. -/
def witReadEnv : ReadEnv where
  sqsReceive := .ok []
  parse := fun _ => none
  dl := []
  mgrDl := []
  clock := []

/-- A read environment with one successful download and time remaining. -/
def witDlEnv : ReadEnv where
  sqsReceive := .ok []
  parse := fun _ => none
  dl := [some ⟨some [104, 105], [("k", "v")]⟩]
  mgrDl := [some [104, 105]]
  clock := [true, true]

/-- A connected reader with one pending target key. -/
def witPending : AmazonS3 :=
  { witClosed with
    targetKeys := [{ s3Key := "k1", s3Bucket := "", attempts := 3, sqsHandle := none }] }

/-- `time.ParseDuration` oracle for witnesses: five seconds. -/
def witParseDuration : String → Option Int := fun _ => some 5000000000

/-- The constructor configuration of the exhausted-retries scenario: one
retry per key, download manager disabled, plain listing (no SQS). -/
def exhaustConf : AmazonS3Config :=
  { NewAmazonS3Config with
    Retries := 1
    DownloadManager := ⟨false⟩ }

/-- Fallback state (never reached) for extracting a constructor result. -/
def exhaustFallback : AmazonS3 where
  conf := exhaustConf
  sqsBodyPath := []
  sqsEnvPath := []
  sqsBucketPath := []
  readKeys := []
  targetKeys := []
  sessionActive := false
  sqsActive := false
  useMgr := false
  timeout := 0

/-- The reader produced by `NewAmazonS3` with `exhaustConf`. -/
def exhaustReader : AmazonS3 :=
  (NewAmazonS3 exhaustConf witParseDuration).toOption.getD exhaustFallback

/-- The listing environment of the exhausted-retries scenario: one object. -/
def exhaustConnEnv : ConnectEnv where
  sessionOk := true
  listPages := [["key1"]]
  listErr := false

/-- The connected reader of the exhausted-retries scenario. -/
def exhaustConnected : AmazonS3 := (exhaustReader.Connect exhaustConnEnv).1

/-- The read environment of the exhausted-retries scenario: the download
fails while deadline time remains. -/
def exhaustReadEnv : ReadEnv where
  sqsReceive := .ok []
  parse := fun _ => none
  dl := [none]
  mgrDl := [none]
  clock := [true, true]

/-- Configuration of the SQS-event witness: key prefix `p`. -/
def witSqsConf : AmazonS3Config :=
  { NewAmazonS3Config with
    PrefixStr := "p"
    SQSURL := "http://queue" }

/-- The array of keys inside the SQS-event witness body. -/
def witKeysArr : List JValue := [.jstr "pk1", .jstr "nope", .jstr "pk2"]

/-- The parsed body of the SQS-event witness. -/
def witSqsVal : JValue :=
  .jobj [("keys", .jarr witKeysArr), ("key", .jstr "pk1"),
         ("bucket", .jarr [.jstr "b1", .jstr "b2"])]

/-- The JSON-parser oracle of the SQS-event witness. -/
def witParse : String → Option JValue :=
  fun s => if s = "thebody" then some witSqsVal else none

/-- The SQS message of the SQS-event witness. -/
def witSqsMsg : SqsMsg where
  messageId := "mid"
  receiptHandle := "rh"
  body := some "thebody"

/-- A concrete counter-based connector for the preserver witness: every
read succeeds with the message `7` and bumps the state. -/
def witLow : LowReader Nat Nat where
  read := fun s => (s + 1, .ok 7)
  acknowledge := fun s _ => (s, none)

/-- The preserver state after one successful read through `witLow`. -/
def witAfterRead : PreserverState Nat Nat where
  inner := 1
  lastRead := some 7
  unAcked := none

/-! ## Lemmas about the delete batching and the download loop -/

theorem batchDeletes_flatten (url : String) (hs : List SqsEntry) :
    ((batchDeletes url hs).filterMap batchEntries).flatten = hs := by
  induction hs using batchDeletes.induct url with
  | case1 hs h =>
    rw [batchDeletes, if_pos h]
    simpa using (List.isEmpty_iff.mp h).symm
  | case2 hs h1 h2 ih =>
    rw [batchDeletes, if_neg h1, dif_pos h2]
    simp [batchEntries, ih]
  | case3 hs h1 h2 =>
    rw [batchDeletes, if_neg h1, dif_neg h2]
    simp [batchEntries]

theorem batchDeletes_mem (url : String) (hs : List SqsEntry) :
    ∀ e ∈ batchDeletes url hs, ∃ es, e = .sqsDeleteBatch url es ∧ es.length ≤ 10 := by
  induction hs using batchDeletes.induct url with
  | case1 hs h => rw [batchDeletes, if_pos h]; simp
  | case2 hs h1 h2 ih =>
    rw [batchDeletes, if_neg h1, dif_pos h2]
    intro e he
    rcases List.mem_cons.mp he with rfl | he2
    · exact ⟨hs.take 10, rfl, by simp⟩
    · exact ih e he2
  | case3 hs h1 h2 =>
    rw [batchDeletes, if_neg h1, dif_neg h2]
    intro e he
    rcases List.mem_cons.mp he with rfl | he2
    · exact ⟨hs, rfl, by omega⟩
    · simp at he2

theorem readBatchLoop_readKeys_extend (conf : AmazonS3Config) :
    ∀ (tk rk : List ObjKey) (dl : List (Option S3Object)) (clock : List Bool)
      (msg : List MsgPart),
      ∃ s, (readBatchLoop conf tk rk dl clock msg).readKeys = rk ++ s := by
  intro tk
  induction tk with
  | nil => intro rk dl clock msg; exact ⟨[], by simp [readBatchLoop]⟩
  | cons t rest ih =>
    intro rk dl clock msg
    rw [readBatchLoop]
    split
    · cases hdl : dl.headD none with
      | none =>
        simp only [hdl]
        split
        · obtain ⟨s, hs⟩ := ih (rk ++ [t]) dl.tail clock.tail msg
          exact ⟨[t] ++ s, by simpa using hs⟩
        · split
          · exact ⟨[], by simp⟩
          · exact ⟨[], by simp⟩
      | some obj =>
        simp only [hdl]
        cases hb : obj.body with
        | none => exact ⟨[t], by simp [hb]⟩
        | some bs =>
          simp only [hb]
          obtain ⟨s, hs⟩ := ih (rk ++ [t]) dl.tail clock.tail
            (msg ++ [⟨bs, obj.metadata ++ [("s3_key", t.s3Key),
              ("s3_bucket", if t.s3Bucket.length > 0 then t.s3Bucket else conf.Bucket)]⟩])
          exact ⟨[t] ++ s, by simpa using hs⟩
    · exact ⟨[], by simp⟩

/-! ## Claims about Acknowledge -/

/-- C1: `Acknowledge(nil)` processes every previously read key (the download
loop moves a key whose download failed its last attempt into the read set via
`popTargetKey`, so such keys are processed too): per key an S3 delete effect
is emitted iff `DeleteObjects` is configured, the non-nil SQS handles are
submitted exactly, in order, via `DeleteMessageBatch` calls of at most 10
entries each, the read set is emptied, and the call returns nil. -/
theorem acknowledge_nil_processes_read_keys (a : AmazonS3) :
    (a.Acknowledge none).2.2 = none ∧
    (a.Acknowledge none).1.readKeys = [] ∧
    (∀ k ∈ a.readKeys, a.conf.DeleteObjects = true →
      Effect.s3Delete (ackBucket a.conf k) k.s3Key ∈ (a.Acknowledge none).2.1) ∧
    (a.conf.DeleteObjects = false →
      ∀ b key, Effect.s3Delete b key ∉ (a.Acknowledge none).2.1) ∧
    ((a.Acknowledge none).2.1.filterMap batchEntries).flatten
      = a.readKeys.filterMap ObjKey.sqsHandle ∧
    (∀ u es, Effect.sqsDeleteBatch u es ∈ (a.Acknowledge none).2.1 →
      u = a.conf.SQSURL ∧ es.length ≤ 10) ∧
    (∀ conf t rest rk dl clock msg, t.attempts = 1 →
      dl.headD none = none →
      ((msg : List MsgPart).length : Int) < conf.MaxBatchCount →
      clock.headD false = true →
      t ∈ (readBatchLoop conf (t :: rest) rk dl clock msg).readKeys) := by
  have hs3 : ∀ e ∈ a.readKeys.filterMap (fun key =>
      if a.conf.DeleteObjects = true then
        some (Effect.s3Delete (ackBucket a.conf key) key.s3Key)
      else none), batchEntries e = none := by
    intro e he
    obtain ⟨k, _, hk⟩ := List.mem_filterMap.mp he
    by_cases hD : a.conf.DeleteObjects = true
    · rw [if_pos hD] at hk
      cases hk
      rfl
    · rw [if_neg hD] at hk
      cases hk
  refine ⟨rfl, rfl, ?_, ?_, ?_, ?_, ?_⟩
  · intro k hk hD
    simp only [AmazonS3.Acknowledge]
    apply List.mem_append_left
    exact List.mem_filterMap.mpr ⟨k, hk, by rw [if_pos hD]⟩
  · intro hD b key hmem
    simp only [AmazonS3.Acknowledge] at hmem
    rcases List.mem_append.mp hmem with h1 | h2
    · obtain ⟨k, _, hk⟩ := List.mem_filterMap.mp h1
      rw [if_neg (by simp [hD])] at hk
      cases hk
    · obtain ⟨es, he, _⟩ := batchDeletes_mem _ _ _ h2
      cases he
  · simp only [AmazonS3.Acknowledge, List.filterMap_append]
    rw [List.filterMap_eq_nil_iff.mpr hs3]
    simpa using batchDeletes_flatten a.conf.SQSURL (a.readKeys.filterMap ObjKey.sqsHandle)
  · intro u es hmem
    simp only [AmazonS3.Acknowledge] at hmem
    rcases List.mem_append.mp hmem with h1 | h2
    · exact absurd (hs3 _ h1) (by simp [batchEntries])
    · obtain ⟨es2, he, hlen⟩ := batchDeletes_mem _ _ _ h2
      cases he
      exact ⟨rfl, hlen⟩
  · intro conf t rest rk dl clock msg hatt hdl hlen hclock
    rw [readBatchLoop, if_pos ⟨hlen, hclock⟩, hdl]
    rw [hatt]
    norm_num
    obtain ⟨s, hsk⟩ := readBatchLoop_readKeys_extend conf rest (rk ++ [t])
      dl.tail clock.tail msg
    rw [hsk]
    simp

/-- Witness for C1 at a concrete reader state: two read keys, one with an
SQS handle, deletes enabled; and a concrete exhausted-retry loop input. -/
theorem acknowledge_nil_processes_read_keys_witness :
    ((witAck.Acknowledge none).2.2 = none ∧
    (witAck.Acknowledge none).1.readKeys = [] ∧
    (∀ k ∈ witAck.readKeys, witAck.conf.DeleteObjects = true →
      Effect.s3Delete (ackBucket witAck.conf k) k.s3Key ∈ (witAck.Acknowledge none).2.1) ∧
    (witAck.conf.DeleteObjects = false →
      ∀ b key, Effect.s3Delete b key ∉ (witAck.Acknowledge none).2.1) ∧
    ((witAck.Acknowledge none).2.1.filterMap batchEntries).flatten
      = witAck.readKeys.filterMap ObjKey.sqsHandle ∧
    (∀ u es, Effect.sqsDeleteBatch u es ∈ (witAck.Acknowledge none).2.1 →
      u = witAck.conf.SQSURL ∧ es.length ≤ 10) ∧
    (∀ conf t rest rk dl clock msg, t.attempts = 1 →
      dl.headD none = none →
      ((msg : List MsgPart).length : Int) < conf.MaxBatchCount →
      clock.headD false = true →
      t ∈ (readBatchLoop conf (t :: rest) rk dl clock msg).readKeys)) ∧
    witAck.readKeys ≠ [] :=
  ⟨acknowledge_nil_processes_read_keys witAck, by decide⟩

/-- C2: `Acknowledge` with a non-nil error performs no AWS calls, prepends
the read keys (in read order) to the pending target keys, empties the read
set and returns nil. -/
theorem acknowledge_err_requeues_read_keys (a : AmazonS3) (e : String) :
    a.Acknowledge (some e) =
      ({ a with targetKeys := a.readKeys ++ a.targetKeys, readKeys := [] },
        [], none) := rfl

/-! ## Claims about Read error classification and batching bounds -/

theorem readSQSEvents_conf (a : AmazonS3) (receive : Except String (List SqsMsg))
    (parse : String → Option JValue) :
    (a.readSQSEvents receive parse).1.conf = a.conf := by
  unfold AmazonS3.readSQSEvents
  rcases receive with e | msgs
  · rfl
  · dsimp only
    split <;> rfl

theorem readPrologue_conf (a : AmazonS3) (env : ReadEnv) :
    (a.readPrologue env).1.conf = a.conf := by
  unfold AmazonS3.readPrologue
  split
  · split
    · exact readSQSEvents_conf a env.sqsReceive env.parse
    · rfl
  · rfl

theorem read_err_of_prologue (a : AmazonS3) (env : ReadEnv) (e : BenthosErr)
    (hs : a.sessionActive = true)
    (hp : (a.readPrologue env).2.2 = some e) :
    a.Read env = ((a.readPrologue env).1, (a.readPrologue env).2.1, .error e) := by
  unfold AmazonS3.Read AmazonS3.read AmazonS3.readFromMgr
  rcases hpe : a.readPrologue env with ⟨a1, effs, oe⟩
  rw [hpe] at hp
  simp only at hp
  subst hp
  rw [hs]
  simp [hpe]

/-- The `messageLoop` fold never makes target keys when no message produces
a `targets` outcome. -/
theorem fold_no_targets (conf : AmazonS3Config)
    (ep bp byp : List String) (parse : String → Option JValue)
    (msgs : List SqsMsg) :
    ∀ duds : List SqsEntry,
      (∀ m ∈ msgs, ∀ ks, processSQSMessage conf ep bp byp parse m ≠ .targets ks) →
      (msgs.foldl
        (fun acc m =>
          match processSQSMessage conf ep bp byp parse m with
          | .dud h => (acc.1, acc.2 ++ [h])
          | .targets ks => (acc.1 ++ ks, acc.2)
          | .skip => acc)
        (([] : List ObjKey), duds)).1 = [] := by
  induction msgs with
  | nil => intro duds _; rfl
  | cons m rest ih =>
    intro duds h
    rw [List.foldl_cons]
    rcases ho : processSQSMessage conf ep bp byp parse m with hh | ks | _
    · dsimp only
      exact ih (duds ++ [hh]) fun m2 hm2 => h m2 (List.mem_cons_of_mem m hm2)
    · exact absurd ho (h m (List.mem_cons_self m rest) ks)
    · dsimp only
      exact ih duds fun m2 hm2 => h m2 (List.mem_cons_of_mem m hm2)

/-- C3: `Read` returns `ErrNotConnected` before a successful `Connect`;
with no SQS client (no SQS URL configured — the constructor starts without
one and `Connect` with an empty URL never installs one) and the listed
targets consumed it returns `ErrTypeClosed`; with SQS configured, a receive
round none of whose messages yields a target key returns `ErrTimeout`. -/
theorem read_error_classification :
    (∀ (a : AmazonS3) (env : ReadEnv), a.sessionActive = false →
      a.Read env = (a, [], .error .notConnected)) ∧
    (∀ (a : AmazonS3) (env : ReadEnv), a.sessionActive = true →
      a.sqsActive = false → a.targetKeys = [] →
      a.Read env = (a, [], .error .typeClosed)) ∧
    (∀ (conf : AmazonS3Config) (pd : String → Option Int) (a0 : AmazonS3),
      conf.SQSURL = "" → NewAmazonS3 conf pd = .ok a0 →
      a0.sqsActive = false ∧ ∀ env, (a0.Connect env).1.sqsActive = false) ∧
    (∀ (a : AmazonS3) (env : ReadEnv) (msgs : List SqsMsg),
      a.sessionActive = true → a.sqsActive = true → a.targetKeys = [] →
      env.sqsReceive = .ok msgs →
      (∀ m ∈ msgs, ∀ ks,
        processSQSMessage a.conf a.sqsEnvPath a.sqsBucketPath a.sqsBodyPath
          env.parse m ≠ .targets ks) →
      (a.Read env).2.2 = .error .timeout) := by
  refine ⟨?_, ?_, ?_, ?_⟩
  · intro a env h
    unfold AmazonS3.Read AmazonS3.read AmazonS3.readFromMgr
    rw [h]
    simp
  · intro a env hs hq ht
    have hp : a.readPrologue env = (a, [], some .typeClosed) := by
      unfold AmazonS3.readPrologue
      rw [ht, hq]
      simp
    have := read_err_of_prologue a env .typeClosed hs (by rw [hp])
    rw [hp] at this
    simpa using this
  · intro conf pd a0 hurl hok
    unfold NewAmazonS3 at hok
    dsimp only at hok
    split at hok
    · cases hok
    · split at hok
      · cases hok
      · cases hok
        refine ⟨rfl, fun env => ?_⟩
        unfold AmazonS3.Connect
        dsimp only
        rw [hurl]
        split
        · rfl
        · split
          · rfl
          · split
            · split <;> rfl
            · rename_i hlen
              simp at hlen
  · intro a env msgs hs hq ht hrecv hnone
    have hsqs : (a.readSQSEvents env.sqsReceive env.parse).2.2 = some .timeout := by
      unfold AmazonS3.readSQSEvents
      rw [hrecv]
      dsimp only
      rw [ht]
      rw [fold_no_targets a.conf a.sqsEnvPath a.sqsBucketPath a.sqsBodyPath
        env.parse msgs [] hnone]
      simp
    have hp : (a.readPrologue env).2.2 = some .timeout := by
      unfold AmazonS3.readPrologue
      rw [ht, hq]
      simpa using hsqs
    rw [read_err_of_prologue a env .timeout hs hp]

/-- Witness for C3: each conjunct applied at a concrete reader state. -/
theorem read_error_classification_witness :
    ({ witAck with sessionActive := false } : AmazonS3).Read witReadEnv
        = ({ witAck with sessionActive := false }, [], .error .notConnected) ∧
    witClosed.Read witReadEnv = (witClosed, [], .error .typeClosed) ∧
    (exhaustReader.sqsActive = false ∧
      ∀ env, (exhaustReader.Connect env).1.sqsActive = false) ∧
    (witSqs.Read witReadEnv).2.2 = .error .timeout := by
  obtain ⟨h1, h2, h3, h4⟩ := read_error_classification
  refine ⟨h1 _ witReadEnv rfl, h2 witClosed witReadEnv rfl rfl rfl, ?_, ?_⟩
  · exact h3 exhaustConf witParseDuration exhaustReader rfl rfl
  · exact h4 witSqs witReadEnv [] rfl rfl rfl rfl (by simp)

theorem readBatchLoop_length_le (conf : AmazonS3Config) :
    ∀ (tk rk : List ObjKey) (dl : List (Option S3Object)) (clock : List Bool)
      (msg : List MsgPart), (msg.length : Int) ≤ conf.MaxBatchCount →
      (((readBatchLoop conf tk rk dl clock msg).msg).length : Int)
        ≤ conf.MaxBatchCount := by
  intro tk
  induction tk with
  | nil => intro rk dl clock msg h; simpa [readBatchLoop] using h
  | cons t rest ih =>
    intro rk dl clock msg h
    rw [readBatchLoop]
    split
    · rename_i hcond
      cases hdl : dl.headD none with
      | none =>
        simp only [hdl]
        split
        · exact ih _ _ _ _ h
        · split
          · simpa using h
          · simpa using h
      | some obj =>
        simp only [hdl]
        cases hb : obj.body with
        | none => simpa using h
        | some bs =>
          apply ih
          have : (msg.length : Int) < conf.MaxBatchCount := hcond.1
          simp only [List.length_append, List.length_cons, List.length_nil]
          push_cast
          omega
    · simpa using h

theorem readMgrLoop_length_le (conf : AmazonS3Config) :
    ∀ (tk rk : List ObjKey) (dl : List (Option (List Nat))) (clock : List Bool)
      (msg : List MsgPart), (msg.length : Int) ≤ conf.MaxBatchCount →
      (((readMgrLoop conf tk rk dl clock msg).msg).length : Int)
        ≤ conf.MaxBatchCount := by
  intro tk
  induction tk with
  | nil => intro rk dl clock msg h; simpa [readMgrLoop] using h
  | cons t rest ih =>
    intro rk dl clock msg h
    rw [readMgrLoop]
    split
    · rename_i hcond
      cases hdl : dl.headD none with
      | none =>
        simp only [hdl]
        split
        · exact ih _ _ _ _ h
        · split
          · simpa using h
          · simpa using h
      | some bs =>
        simp only [hdl]
        apply ih
        have : (msg.length : Int) < conf.MaxBatchCount := hcond.1
        simp only [List.length_append, List.length_cons, List.length_nil]
        push_cast
        omega
    · simpa using h

/-- C4: the constructor rejects `max_batch_count < 1`, and a successful
`Read` never returns more parts than `max_batch_count`. -/
theorem read_batch_count_bounds :
    (∀ (conf : AmazonS3Config) (pd : String → Option Int),
      conf.MaxBatchCount < 1 → ∃ e, NewAmazonS3 conf pd = .error e) ∧
    (∀ (a : AmazonS3) (env : ReadEnv) (parts : List MsgPart),
      1 ≤ a.conf.MaxBatchCount → (a.Read env).2.2 = .ok parts →
      ((parts.length : Int) ≤ a.conf.MaxBatchCount)) := by
  constructor
  · intro conf pd h
    unfold NewAmazonS3
    dsimp only
    split
    · exact ⟨_, rfl⟩
    · rw [if_pos h]
      exact ⟨_, rfl⟩
  · intro a env parts hmax hok
    have hconf := readPrologue_conf a env
    unfold AmazonS3.Read AmazonS3.read AmazonS3.readFromMgr at hok
    split at hok
    -- download-manager variant
    · split at hok
      · simp at hok
      · rcases hpe : a.readPrologue env with ⟨a1, effs, oe⟩
        rw [hpe] at hok hconf
        cases oe with
        | some e => simp at hok
        | none =>
          simp only at hok hconf
          split at hok
          · simp at hok
          · split at hok
            · simp at hok
            · simp only [Except.ok.injEq] at hok
              subst hok
              have hb := readMgrLoop_length_le a1.conf a1.targetKeys a1.readKeys
                env.mgrDl env.clock [] (by simp [hconf]; omega)
              rw [← hconf]
              exact hb
    -- plain variant
    · split at hok
      · simp at hok
      · rcases hpe : a.readPrologue env with ⟨a1, effs, oe⟩
        rw [hpe] at hok hconf
        cases oe with
        | some e => simp at hok
        | none =>
          simp only at hok hconf
          split at hok
          · simp at hok
          · split at hok
            · simp at hok
            · simp only [Except.ok.injEq] at hok
              subst hok
              have hb := readBatchLoop_length_le a1.conf a1.targetKeys a1.readKeys
                env.dl env.clock [] (by simp [hconf]; omega)
              rw [← hconf]
              exact hb

/-- Witness for C4: a rejected configuration and a concrete one-part read. -/
theorem read_batch_count_bounds_witness :
    (∃ e, NewAmazonS3 { NewAmazonS3Config with MaxBatchCount := 0 }
      witParseDuration = .error e) ∧
    ((witPending.Read witDlEnv).2.2
        = .ok [⟨[104, 105], [("k", "v"), ("s3_key", "k1"), ("s3_bucket", "bkt")]⟩] ∧
      ((([⟨[104, 105], [("k", "v"), ("s3_key", "k1"), ("s3_bucket", "bkt")]⟩]
          : List MsgPart).length : Int) ≤ witPending.conf.MaxBatchCount)) := by
  refine ⟨(read_batch_count_bounds).1 _ witParseDuration (by decide), rfl, ?_⟩
  exact (read_batch_count_bounds).2 witPending witDlEnv _ (by decide) rfl

/-- C5: a second `Connect` on a connected reader returns nil at once and
changes nothing — in particular no listing happens and the pending target
keys are untouched. -/
theorem connect_idempotent (a : AmazonS3) (env : ConnectEnv)
    (h : a.sessionActive = true) : a.Connect env = (a, none) := by
  unfold AmazonS3.Connect
  rw [h]
  simp

/-- Witness for C5: reconnecting the connected witness state. -/
theorem connect_idempotent_witness :
    witAck.Connect ⟨true, [["extra"]], false⟩ = (witAck, none) :=
  connect_idempotent witAck ⟨true, [["extra"]], false⟩ rfl

/-! ## Claims about the exhausted-retries path and SQS handle placement -/

/-- C9: a reachable state in which `Read` succeeds with a zero-part message:
after connecting with `retries = 1` over a one-object listing, a failing
download exhausts the key inside the batching loop (the key is popped into
the read set and the loop moves on), the loop drains the target list, and
the empty message is returned with a nil error. -/
theorem read_returns_empty_message :
    NewAmazonS3 exhaustConf witParseDuration = .ok exhaustReader ∧
    exhaustReader.Connect exhaustConnEnv = (exhaustConnected, none) ∧
    exhaustConnected.targetKeys ≠ [] ∧
    exhaustConnected.Read exhaustReadEnv =
      ({ exhaustConnected with
          targetKeys := []
          readKeys := [{ s3Key := "key1", s3Bucket := "", attempts := 1,
                         sqsHandle := none }] },
        [], .ok []) := by
  refine ⟨rfl, rfl, by decide, ?_⟩
  rfl

theorem setLastHandle_length (h : SqsEntry) :
    ∀ l : List ObjKey, (setLastHandle h l).length = l.length := by
  intro l
  induction l with
  | nil => rfl
  | cons k tl ih =>
    cases tl with
    | nil => rfl
    | cons k2 ks => simpa [setLastHandle] using ih

theorem setLastHandle_map (h : SqsEntry) :
    ∀ l : List ObjKey, l ≠ [] → (∀ k ∈ l, k.sqsHandle = none) →
      (setLastHandle h l).map ObjKey.sqsHandle
        = List.replicate (l.length - 1) none ++ [some h] := by
  intro l
  induction l with
  | nil => intro hne _; exact absurd rfl hne
  | cons k tl ih =>
    intro _ hnone
    cases tl with
    | nil => simp [setLastHandle]
    | cons k2 ks =>
      have hk : k.sqsHandle = none := hnone k (by simp)
      have := ih (by simp) fun k3 hk3 => hnone k3 (List.mem_cons_of_mem k hk3)
      simp only [setLastHandle, List.map_cons, hk, this]
      simp [List.replicate_succ]

theorem setLastHandle_filterMap (h : SqsEntry) :
    ∀ l : List ObjKey, l ≠ [] → (∀ k ∈ l, k.sqsHandle = none) →
      (setLastHandle h l).filterMap ObjKey.sqsHandle = [h] := by
  intro l
  induction l with
  | nil => intro hne _; exact absurd rfl hne
  | cons k tl ih =>
    intro _ hnone
    cases tl with
    | nil => simp [setLastHandle]
    | cons k2 ks =>
      have hk : k.sqsHandle = none := hnone k (by simp)
      have := ih (by simp) fun k3 hk3 => hnone k3 (List.mem_cons_of_mem k hk3)
      simp [setLastHandle, hk, this]

/-- C10: for an SQS event (no envelope path configured) whose body path
resolves to a slice of keys of which some match the key prefix, the SQS
delete handle is attached only to the last appended key — so exactly one of
the batch's keys carries the handle, and `Acknowledge(nil)` deletes the SQS
message iff the batch holding that last key is acknowledged; when the body
path resolves to a single string key, only the first extracted bucket name
is used. -/
theorem sqs_handle_on_last_key (conf : AmazonS3Config)
    (bucketPath bodyPath : List String) (parse : String → Option JValue)
    (m : SqsMsg) (body : String) (g : JValue)
    (hb : m.body = some body) (hp : parse body = some g) :
    (∀ t, searchData g bodyPath = .jarr t →
      ((digStrsFromSlices t).filter fun p => hasPrefixStr p conf.PrefixStr) ≠ [] →
      ∃ ks, processSQSMessage conf [] bucketPath bodyPath parse m = .targets ks ∧
        ks.length
          = ((digStrsFromSlices t).filter fun p => hasPrefixStr p conf.PrefixStr).length ∧
        ks.map ObjKey.sqsHandle
          = List.replicate (ks.length - 1) none
              ++ [some ⟨m.messageId, m.receiptHandle⟩] ∧
        ks.filterMap ObjKey.sqsHandle = [⟨m.messageId, m.receiptHandle⟩]) ∧
    (∀ t, searchData g bodyPath = .jstr t →
      hasPrefixStr t conf.PrefixStr = true →
      processSQSMessage conf [] bucketPath bodyPath parse m
        = .targets [{ s3Key := t
                      s3Bucket := (extractBuckets g bucketPath).headD ""
                      attempts := conf.Retries
                      sqsHandle := some ⟨m.messageId, m.receiptHandle⟩ }]) := by
  constructor
  · intro t hsrch hne
    set newTargets := (digStrsFromSlices t).filter fun p => hasPrefixStr p conf.PrefixStr
      with hnt
    set ks0 := newTargets.enum.map fun itgt =>
      ({ s3Key := itgt.2, s3Bucket := (extractBuckets g bucketPath).getD itgt.1 ""
         attempts := conf.Retries, sqsHandle := none } : ObjKey) with hks0
    have hproc : processSQSMessage conf [] bucketPath bodyPath parse m
        = .targets (setLastHandle ⟨m.messageId, m.receiptHandle⟩ ks0) := by
      unfold processSQSMessage
      rw [hb]
      dsimp only
      rw [hp]
      dsimp only
      simp only [List.length_nil, gt_iff_lt, lt_self_iff_false, ite_false, if_false]
      rw [hsrch]
      dsimp only
      rw [if_neg (by simp only [List.isEmpty_eq_true]; simpa [hnt] using hne)]
    have hne0 : ks0 ≠ [] := by
      rw [hks0]
      intro hcon
      have hlen := congrArg List.length hcon
      simp only [List.length_map, List.enum_length, List.length_nil] at hlen
      exact hne (List.length_eq_zero.mp hlen)
    have hnone0 : ∀ k ∈ ks0, k.sqsHandle = none := by
      intro k hk
      rw [hks0] at hk
      obtain ⟨itgt, _, rfl⟩ := List.mem_map.mp hk
      rfl
    refine ⟨setLastHandle ⟨m.messageId, m.receiptHandle⟩ ks0, hproc, ?_, ?_, ?_⟩
    · rw [setLastHandle_length, hks0]
      simp
    · rw [setLastHandle_length]
      exact setLastHandle_map _ ks0 hne0 hnone0
    · exact setLastHandle_filterMap _ ks0 hne0 hnone0
  · intro t hsrch hpre
    unfold processSQSMessage
    rw [hb]
    dsimp only
    rw [hp]
    dsimp only
    simp only [List.length_nil, gt_iff_lt, lt_self_iff_false, ite_false, if_false]
    rw [hsrch]
    dsimp only
    rw [if_pos hpre]

/-- Witness for C10 at a concrete S3-style event: the body path resolves to
two matching keys (of three listed); the bucket path to two bucket names. -/
theorem sqs_handle_on_last_key_witness :
    (∃ ks, processSQSMessage witSqsConf [] ["bucket"] ["keys"] witParse witSqsMsg
        = .targets ks ∧
      ks.length
        = ((digStrsFromSlices witKeysArr).filter
            fun p => hasPrefixStr p witSqsConf.PrefixStr).length ∧
      ks.map ObjKey.sqsHandle
        = List.replicate (ks.length - 1) none ++ [some ⟨"mid", "rh"⟩] ∧
      ks.filterMap ObjKey.sqsHandle = [⟨"mid", "rh"⟩]) ∧
    processSQSMessage witSqsConf [] ["bucket"] ["key"] witParse witSqsMsg
      = .targets [{ s3Key := "pk1"
                    s3Bucket := (extractBuckets witSqsVal ["bucket"]).headD ""
                    attempts := witSqsConf.Retries
                    sqsHandle := some ⟨"mid", "rh"⟩ }] := by
  have h := sqs_handle_on_last_key witSqsConf ["bucket"] ["keys"] witParse
    witSqsMsg "thebody" witSqsVal rfl rfl
  have h2 := sqs_handle_on_last_key witSqsConf ["bucket"] ["key"] witParse
    witSqsMsg "thebody" witSqsVal rfl rfl
  refine ⟨h.1 witKeysArr ?_ ?_, h2.2 "pk1" ?_ ?_⟩
  · simp [searchData, gabsSearch, witSqsVal, witKeysArr]
  · simp [digStrsFromSlices, witKeysArr, hasPrefixStr, List.isPrefixOf]
  · simp [searchData, gabsSearch, witSqsVal, List.lookup]
  · simp [hasPrefixStr, witSqsConf, List.isPrefixOf]

/-! ## Claims about the decompress processor -/

theorem decompress_foldl_filterMap (d : Decompress) (lParts : Nat) :
    ∀ (l : List (Nat × List Nat)) (acc : List (List Nat)),
      l.foldl
        (fun acc ip =>
          if decompTargeted d.conf.Parts lParts ip.1 = false then acc ++ [ip.2]
          else
            match d.decomp ip.2 with
            | some newPart => acc ++ [newPart]
            | none => acc)
        acc
      = acc ++ l.filterMap (fun ip =>
          if decompTargeted d.conf.Parts lParts ip.1 then d.decomp ip.2
          else some ip.2) := by
  intro l
  induction l with
  | nil => intro acc; simp
  | cons ip rest ih =>
    intro acc
    rw [List.foldl_cons, List.filterMap_cons]
    cases ht : decompTargeted d.conf.Parts lParts ip.1 with
    | false => simp only [ht]; rw [ih]; simp
    | true =>
      simp only [ht]
      cases hd : d.decomp ip.2 with
      | some np => simp only [hd]; rw [ih]; simp
      | none => simp only [hd]; rw [ih]; simp

/-- `ProcessMessage` in terms of the single-pass part list. -/
theorem processMessage_eq (d : Decompress) (msg : TMessage) :
    d.ProcessMessage msg =
      if decompressResultParts d msg = [] then
        ([], some (.simpleResponse none))
      else ([⟨decompressResultParts d msg⟩], none) := by
  unfold Decompress.ProcessMessage decompressResultParts
  dsimp only
  rw [decompress_foldl_filterMap]
  simp only [List.nil_append, List.isEmpty_eq_true]

/-- C6: `ProcessMessage` drops the whole message, answering success, exactly
when the resulting message would have zero parts — every targeted part fails
to decompress and no untargeted part exists; otherwise it emits exactly one
message and a nil response whose parts are the untargeted parts unchanged in
their original positions and the surviving decompressions, failures
removed. -/
theorem decompress_processMessage_spec (d : Decompress) (msg : TMessage) :
    (d.ProcessMessage msg = ([], some (.simpleResponse none)) ↔
      ∀ ip ∈ msg.Parts.enum,
        decompTargeted d.conf.Parts msg.Parts.length ip.1 = true ∧
          d.decomp ip.2 = none) ∧
    (decompressResultParts d msg ≠ [] →
      d.ProcessMessage msg = ([⟨decompressResultParts d msg⟩], none)) := by
  have hchar : decompressResultParts d msg = [] ↔
      ∀ ip ∈ msg.Parts.enum,
        decompTargeted d.conf.Parts msg.Parts.length ip.1 = true ∧
          d.decomp ip.2 = none := by
    unfold decompressResultParts
    rw [List.filterMap_eq_nil_iff]
    constructor
    · intro h ip hip
      have := h ip hip
      cases ht : decompTargeted d.conf.Parts msg.Parts.length ip.1 with
      | false => rw [ht] at this; simp at this
      | true => rw [ht] at this; simp only [if_true] at this; exact ⟨rfl, this⟩
    · intro h ip hip
      obtain ⟨ht, hd⟩ := h ip hip
      rw [ht, if_pos rfl]
      exact hd
  constructor
  · rw [processMessage_eq]
    by_cases hz : decompressResultParts d msg = []
    · rw [if_pos hz]
      simpa using hchar.mp hz
    · rw [if_neg hz]
      constructor
      · intro hcon
        exact absurd (congrArg Prod.fst hcon) (by simp)
      · intro hall
        exact absurd (hchar.mpr hall) hz
  · intro hnz
    rw [processMessage_eq, if_neg hnz]

/-- Witness for C6: a two-part message through the all-parts decompressor,
one part decompressible and one not. -/
theorem decompress_processMessage_spec_witness :
    (witDecompress.ProcessMessage ⟨[[1, 7], [9]]⟩
        = ([], some (.simpleResponse none)) ↔
      ∀ ip ∈ ([[1, 7], [9]] : List (List Nat)).enum,
        decompTargeted witDecompress.conf.Parts 2 ip.1 = true ∧
          witDecompress.decomp ip.2 = none) ∧
    (decompressResultParts witDecompress ⟨[[1, 7], [9]]⟩ ≠ [] →
      witDecompress.ProcessMessage ⟨[[1, 7], [9]]⟩
        = ([⟨decompressResultParts witDecompress ⟨[[1, 7], [9]]⟩⟩], none)) ∧
    decompressResultParts witDecompress ⟨[[1, 7], [9]]⟩ = [[7]] :=
  ⟨(decompress_processMessage_spec witDecompress ⟨[[1, 7], [9]]⟩).1,
   (decompress_processMessage_spec witDecompress ⟨[[1, 7], [9]]⟩).2, rfl⟩

/-! ## Claims about the gzip round trip -/

theorem inflateStored_cons (bf l0 l1 n0 n1 : Nat) (rest : List Nat) :
    inflateStored (bf :: l0 :: l1 :: n0 :: n1 :: rest) =
      (if n0 + 256 * n1 = 65535 - (l0 + 256 * l1) ∧ l0 + 256 * l1 ≤ rest.length then
        if bf = 1 then
          some (rest.take (l0 + 256 * l1), rest.drop (l0 + 256 * l1))
        else if bf = 0 then
          match inflateStored (rest.drop (l0 + 256 * l1)) with
          | some pr => some (rest.take (l0 + 256 * l1) ++ pr.1, pr.2)
          | none => none
        else none
      else none) := by
  rw [inflateStored]

theorem inflate_deflate :
    ∀ (n : Nat) (data rest : List Nat), data.length ≤ n →
      inflateStored (deflateStored data ++ rest) = some (data, rest) := by
  intro n
  induction n using Nat.strong_induction_on with
  | _ n ih =>
    intro data rest hlen
    by_cases h65 : data.length ≤ 65535
    · rw [deflateStored, dif_pos h65]
      have hsh : ((1 : Nat) :: (le16 data.length ++
            le16 (65535 - data.length) ++ data) ++ rest)
          = 1 :: (data.length % 256) :: (data.length / 256 % 256) ::
            ((65535 - data.length) % 256) :: ((65535 - data.length) / 256 % 256) ::
            (data ++ rest) := by
        simp [le16]
      rw [hsh, inflateStored_cons]
      have hd1 : data.length % 256 + 256 * (data.length / 256 % 256)
          = data.length := by omega
      have hd2 : (65535 - data.length) % 256 +
          256 * ((65535 - data.length) / 256 % 256) = 65535 - data.length := by
        omega
      rw [hd1, hd2]
      rw [if_pos ⟨rfl, by simp⟩]
      rw [if_pos rfl]
      rw [List.take_left, List.drop_left]
    · rw [deflateStored, dif_neg h65]
      have hsh : ((0 : Nat) :: (le16 65535 ++ le16 0 ++
            (data.take 65535 ++ deflateStored (data.drop 65535))) ++ rest)
          = 0 :: 255 :: 255 :: 0 :: 0 ::
            (data.take 65535 ++ (deflateStored (data.drop 65535) ++ rest)) := by
        simp [le16]
      rw [hsh, inflateStored_cons]
      have htk : (data.take 65535).length = 65535 := by
        rw [List.length_take]
        omega
      have hcond : (0 : Nat) + 256 * 0 = 65535 - (255 + 256 * 255) ∧
          255 + 256 * 255 ≤ (data.take 65535 ++
            (deflateStored (data.drop 65535) ++ rest)).length := by
        constructor
        · norm_num
        · rw [List.length_append, htk]
          omega
      rw [if_pos hcond]
      norm_num
      have hdrop : (data.take 65535 ++
            (deflateStored (data.drop 65535) ++ rest)).drop (255 + 256 * 255)
          = deflateStored (data.drop 65535) ++ rest := by
        rw [show (255 + 256 * 255 : Nat) = (data.take 65535).length from by omega]
        exact List.drop_left _ _
      have htake : (data.take 65535 ++
            (deflateStored (data.drop 65535) ++ rest)).take (255 + 256 * 255)
          = data.take 65535 := by
        rw [show (255 + 256 * 255 : Nat) = (data.take 65535).length from by omega]
        exact List.take_left _ _
      rw [hdrop, htake]
      have hn0 : 0 < n := by omega
      rw [ih (n - 1) (by omega) (data.drop 65535) rest (by simp; omega)]
      simp

/-- C7 (the gzip writer and reader are library code modelled from the spec):
decompressing the gzip compression of any byte string yields exactly that
byte string. -/
theorem gzip_roundtrip (data : List Nat) (_hbytes : ∀ x ∈ data, x < 256) :
    gzipDecompress (gzipCompress data) = some data := by
  unfold gzipCompress gzipDecompress
  have h1 := inflate_deflate data.length data
    (le32 (data.foldl (· + ·) 0 % 4294967296) ++
      le32 (data.length % 4294967296)) le_rfl
  simp only [List.cons_append, List.nil_append, List.append_assoc]
  rw [h1]
  simp

/-- Witness for C7 at a concrete payload. -/
theorem gzip_roundtrip_witness :
    gzipDecompress (gzipCompress [104, 105, 33]) = some [104, 105, 33] :=
  gzip_roundtrip [104, 105, 33] (by decide)

/-! ## Claims about the preserver wiring -/

theorem preserverRead_lastRead {σ μ : Type} (r : LowReader σ μ)
    (s s1 : PreserverState σ μ) (m : μ)
    (h : preserverRead r s = (s1, .ok m)) : s1.lastRead = some m := by
  unfold preserverRead at h
  cases hu : s.unAcked with
  | some m2 =>
    rw [hu] at h
    simp only [Prod.mk.injEq, Except.ok.injEq] at h
    rw [← h.1, h.2]
  | none =>
    rw [hu] at h
    dsimp only at h
    cases hr : (r.read s.inner).2 with
    | ok m2 =>
      rw [hr] at h
      simp only [Prod.mk.injEq, Except.ok.injEq] at h
      rw [← h.1, h.2]
    | error e =>
      rw [hr] at h
      simp at h

/-- C8: the redis_list input constructor hands the reader adaptor its Redis
list connector wrapped in a `Preserver`, while the nsq constructor hands its
connector over bare; and (preserver semantics modelled from the spec) after
an acknowledgement with a non-nil error the preserver re-emits the last read
message on the next read, without touching the wrapped connector. -/
theorem redis_list_preserver_wiring :
    (NewRedisList true = .ok ⟨"redis_list", .preserved .rawRedisList⟩) ∧
    (NewNSQ true = .ok ⟨"nsq", .rawNSQ⟩) ∧
    (∀ ok t, NewNSQ ok = .ok t → ∀ d, t.rdr ≠ .preserved d) ∧
    (∀ (σ μ : Type) (r : LowReader σ μ) (s s1 : PreserverState σ μ)
        (m : μ) (e : String),
      preserverRead r s = (s1, .ok m) →
      (preserverAcknowledge r s1 (some e)).2 = none ∧
      preserverRead r (preserverAcknowledge r s1 (some e)).1
        = ({ (preserverAcknowledge r s1 (some e)).1 with
              unAcked := none, lastRead := some m }, .ok m) ∧
      (preserverRead r (preserverAcknowledge r s1 (some e)).1).1.inner
        = s1.inner) := by
  refine ⟨rfl, rfl, ?_, ?_⟩
  · intro ok t ht d
    cases ok with
    | true =>
      simp only [NewNSQ, if_true] at ht
      cases ht
      simp
    | false => simp [NewNSQ] at ht
  · intro σ μ r s s1 m e hread
    have hlast : s1.lastRead = some m := preserverRead_lastRead r s s1 m hread
    have hack : preserverAcknowledge r s1 (some e)
        = ({ s1 with unAcked := s1.lastRead }, none) := rfl
    refine ⟨by rw [hack], ?_, ?_⟩
    · rw [hack]
      unfold preserverRead
      simp only [hlast]
    · rw [hack]
      unfold preserverRead
      simp only [hlast]

/-- Witness for C8's preserver semantics at a concrete counter-based
connector. -/
theorem redis_list_preserver_wiring_witness :
    (preserverAcknowledge witLow witAfterRead (some "boom")).2 = none ∧
    preserverRead witLow (preserverAcknowledge witLow witAfterRead (some "boom")).1
      = ({ (preserverAcknowledge witLow witAfterRead (some "boom")).1 with
            unAcked := none, lastRead := some 7 }, .ok 7) ∧
    (preserverRead witLow
        (preserverAcknowledge witLow witAfterRead (some "boom")).1).1.inner
      = witAfterRead.inner :=
  (redis_list_preserver_wiring).2.2.2 Nat Nat witLow
    { inner := 0, lastRead := none, unAcked := none } witAfterRead 7 "boom" rfl

end Benthos
